import Mathlib

/-!
Shallow embedding of the dolphin sequential ministack pipeline: persistent
scatterer detection (`dolphin/ps.py`), SHP classification
(`dolphin/shp/_glrt.py`, `dolphin/shp/_tf_test.py`), ministack planning
(`dolphin/stack.py`), compression (`dolphin/phase_link/_compress.py`),
sequential orchestration (`dolphin/sequential.py`) and stack reading
(`dolphin/_readers.py`), together with theorems checking the
natural-language specification against the code.

Floating-point arithmetic is idealised as exact arithmetic over `ℚ`, `ℝ` or
`ℂ`.  A NaN sample (or a non-finite intermediate value, at the places where
the code immediately collapses NaN and infinities to the same sentinel) is
represented by `none` in an `Option` type.
-/

set_option autoImplicit false

namespace Dolphin

/-! ### Persistent scatterer detection (`dolphin/ps.py`)

The per-pixel arithmetic of `calc_ps_block` and the dispatch logic of
`create_ps`.  A pixel's magnitude time series is a `List (Option ℝ)`,
`none` standing for a NaN sample. -/

/-- Valid (non-NaN) samples of one pixel's magnitude time series. -/
def valids (x : List (Option ℝ)) : List ℝ := x.filterMap id

/-- Number of non-NaN samples of one pixel:
`count = np.count_nonzero(~np.isnan(stack_mag), axis=0)`. -/
def validCount (x : List (Option ℝ)) : ℕ := (valids x).length

/-- `np.nanmean` along the stack axis for one pixel: mean of the non-NaN
samples, NaN (`none`) when every sample is NaN. -/
noncomputable def nanmean (x : List (Option ℝ)) : Option ℝ :=
  if valids x = [] then none
  else some ((valids x).sum / (valids x).length)

/-- `np.nanstd` along the stack axis for one pixel: population standard
deviation (`ddof = 0`) of the non-NaN samples, NaN (`none`) when every
sample is NaN. -/
noncomputable def nanstd (x : List (Option ℝ)) : Option ℝ :=
  match nanmean x with
  | none => none
  | some m =>
      some (Real.sqrt ((((valids x).map (fun v => (v - m) ^ 2)).sum) /
        (valids x).length))

/-- Floating division `std_dev / mean`, keeping only finite results.
Division by zero yields NaN (0/0) or ±inf, and `calc_ps_block` collapses
every non-finite value to the sentinel 0 through
`np.nan_to_num(..., nan=0, posinf=0, neginf=0)`, so the embedding collapses
all non-finite outcomes to `none`. -/
noncomputable def finDiv : Option ℝ → Option ℝ → Option ℝ
  | some a, some b => if b = 0 then none else some (a / b)
  | _, _ => none

/-- One pixel of `calc_ps_block` (`dolphin/ps.py`, lines 161-236), following
the source statement by statement.  Returns `(mean, amp_disp, ps)`; the
boolean PS flag is a `Prop` because it compares real values.
`minCount = none` selects the source default `int(0.9 * stack_mag.shape[0])`. -/
noncomputable def calcPsBlock (x : List (Option ℝ)) (ampDispersionThreshold : ℝ)
    (minCount : Option ℕ) : ℝ × ℝ × Prop :=
  let mc := minCount.getD (9 * x.length / 10)
  let mean := nanmean x
  let stdDev := nanstd x
  let count := validCount x
  -- amp_disp = std_dev / mean
  let ampDisp := finDiv stdDev mean
  -- amp_disp[count < min_count] = np.nan
  let ampDisp := if count < mc then none else ampDisp
  -- mean = np.nan_to_num(mean, nan=0, posinf=0, neginf=0)
  let meanOut := mean.getD 0
  -- amp_disp = np.nan_to_num(amp_disp, nan=0, posinf=0, neginf=0)
  let ampDispOut := ampDisp.getD 0
  -- ps = amp_disp < amp_dispersion_threshold ; ps[amp_disp == 0] = False
  (meanOut, ampDispOut, ampDispOut < ampDispersionThreshold ∧ ampDispOut ≠ 0)

/-- C1: for every real-valued magnitude pixel series, `calc_ps_block` returns
the dispersion `nanstd / nanmean` (non-finite values collapsing to the
sentinel 0), forced to the invalid sentinel 0 whenever fewer than `min_count`
samples are valid, and a PS flag holding exactly when the dispersion is
strictly below the threshold and different from 0; in particular a pixel
with too few valid samples is never a PS. -/
theorem calc_ps_block_dispersion_mask (x : List (Option ℝ)) (θ : ℝ) (mc : ℕ) :
    (calcPsBlock x θ (some mc)).2.1 =
      (if validCount x < mc then (0 : ℝ)
       else (finDiv (nanstd x) (nanmean x)).getD 0) ∧
    ((calcPsBlock x θ (some mc)).2.2 ↔
      (calcPsBlock x θ (some mc)).2.1 < θ ∧ (calcPsBlock x θ (some mc)).2.1 ≠ 0) ∧
    (validCount x < mc → ¬ (calcPsBlock x θ (some mc)).2.2) := by
  refine ⟨?_, Iff.rfl, ?_⟩
  · simp only [calcPsBlock]
    by_cases h : validCount x < mc <;> simp [h]
  · intro h hps
    exact hps.2 (by simp [calcPsBlock, h])

/-- Output rasters written by `create_ps` for one block: amplitude mean and
amplitude dispersion (float32), and the PS mask as uint8 bytes (1 = PS,
0 = not PS, 255 = nodata sentinel). -/
structure PsBlockOut where
  mean : List ℝ
  ampDisp : List ℝ
  psByte : List ℕ

section
open Classical

/-- One block of `create_ps` (`dolphin/ps.py`, lines 78-158), with a block
given as a list of pixels, each pixel a complex time series.  `existing` is
the per-pixel content of the existing amplitude mean/dispersion files
(`none` when no existing files are passed).  Branches follow the source:
with existing files and `update_existing = False` the existing dispersion is
thresholded and copied (`_use_existing_files`); otherwise the statistics are
computed from the current SLC stack with `calc_ps_block`, using
`min_count = len(magnitude_cur)`, after the all-zero/all-NaN nodata check. -/
noncomputable def createPsBlock (existing : Option (List ℝ × List ℝ))
    (updateExisting : Bool) (block : List (List (Option ℂ))) (θ : ℝ) :
    PsBlockOut :=
  match existing, updateExisting with
  | some (exMean, exDisp), false =>
      -- _use_existing_files: ps = amp_disp < θ, as uint8; ps[amp_disp == 0] = 255
      { mean := exMean
        ampDisp := exDisp
        psByte := exDisp.map (fun d =>
          if d = 0 then 255 else if d < θ then 1 else 0) }
  | _, _ =>
      -- compute the PS files from the SLC stack (the existing files are not read)
      if (∀ p ∈ block, ∀ v ∈ p, v = some 0) ∨ (∀ p ∈ block, ∀ v ∈ p, v = none) then
        -- nodata block: fill with the sentinels
        { mean := block.map fun _ => 0
          ampDisp := block.map fun _ => 0
          psByte := block.map fun _ => 255 }
      else
        -- magnitude_cur = np.abs(cur_data); min_count = len(magnitude_cur)
        let res := block.map (fun p =>
          calcPsBlock (p.map (Option.map Complex.abs)) θ (some p.length))
        { mean := res.map (fun r => r.1)
          ampDisp := res.map (fun r => r.2.1)
          -- ps = ps.astype(uint8); ps[amp_disp == 0] = 255
          psByte := res.map (fun r =>
            if r.2.1 = 0 then 255 else if r.2.2 then 1 else 0) }

/-- Modelled from the spec: Contract B's Welford online update of the mean,
`mean_{N+1} = mean_N + (x - mean_N)/(N+1)`, which the spec requires
`create_ps` to apply when combining existing statistics from N acquisitions
with a new acquisition's amplitude `x`.  No such computation exists in
`dolphin/ps.py`; this definition only serves to exhibit the divergence. -/
noncomputable def welfordCombinedMean (meanN : ℝ) (N : ℕ) (x : ℝ) : ℝ :=
  meanN + (x - meanN) / (N + 1)

/-- C4 (code defect): with `update_existing = True`, `create_ps` never reads
the existing amplitude mean/dispersion — its output equals the computation
from the current stack alone for every possible existing content — although
its own docstring promises to "combine them with the data from the current
SLC stack".  On the concrete failing input (one pixel, one new acquisition
of amplitude 2, existing mean 5 from N = 1 acquisitions) the written mean is
2, whereas the Welford combination required by the spec gives 7/2. -/
theorem create_ps_update_existing_ignores_existing :
    (∀ (ex₁ ex₂ : List ℝ × List ℝ) (block : List (List (Option ℂ))) (θ : ℝ),
        createPsBlock (some ex₁) true block θ =
          createPsBlock (some ex₂) true block θ ∧
        createPsBlock (some ex₁) true block θ =
          createPsBlock none true block θ) ∧
    (createPsBlock (some ([5], [1/2])) true [[some 2]] (1/4)).mean = [2] ∧
    welfordCombinedMean 5 1 2 = 7/2 ∧ ((2 : ℝ) ≠ 7/2) := by
  refine ⟨fun ex₁ ex₂ block θ => ⟨rfl, rfl⟩, ?_, ?_, by norm_num⟩
  · have hblock : ¬ ((∀ p ∈ ([[some (2 : ℂ)]] : List (List (Option ℂ))),
        ∀ v ∈ p, v = some 0) ∨
        (∀ p ∈ ([[some (2 : ℂ)]] : List (List (Option ℂ))), ∀ v ∈ p, v = none)) := by
      intro h
      rcases h with h | h
      · have := h [some 2] (by simp) (some 2) (by simp)
        simp at this
      · have := h [some 2] (by simp) (some 2) (by simp)
        simp at this
    simp only [createPsBlock, hblock, if_neg, not_false_iff]
    simp [calcPsBlock, valids, nanmean, Complex.abs_two]
  · unfold welfordCombinedMean
    norm_num

end

/-! ### SHP classification (`dolphin/shp/_glrt.py` and `dolphin/shp/_tf_test.py`)

The 4-D boolean mask `is_shp` is embedded as a function of its four indices
`(out_r, out_c, r_off, c_off)`: cells the per-pixel loop never writes keep
the `np.zeros` initialisation (`false`).  Statistics over `ℚ` (GLRT) are
exact rational arithmetic; the t/F-test statistic needs a square root, so
that mask is `Prop`-valued over `ℝ`.  The scipy distribution quantiles
(`f.ppf`, `t.ppf`) that produce the cutoffs are an external library, so the
cutoffs are parameters. -/

/-- Modelled from the spec: `compute_out_shape` (`dolphin/io`, not included in
the sources) maps the input dimensions to the stride-decimated output grid,
`floor(dim / stride)` in each dimension. -/
def computeOutShape (rows cols sy sx : ℕ) : ℕ × ℕ := (rows / sy, cols / sx)

/-- Modelled from the spec: `_get_slices` (`dolphin.utils`, not included in
the sources) clamps the half-window around `(r, c)` to the image extent:
`(max(r - half_r, 0), min(r + half_r + 1, rows))` per dimension (the lower
clamp is ℕ-subtraction here). -/
def getSlices (halfR halfC r c rows cols : ℕ) : (ℕ × ℕ) × (ℕ × ℕ) :=
  ((r - halfR, min (r + halfR + 1) rows), (c - halfC, min (c + halfC + 1) cols))

/-- Rayleigh scale parameter of a pixel:
`scale_squared = (var + mean**2) / 2` (`dolphin/shp/_glrt.py`). -/
def scaleSquared (mean var : ℚ) : ℚ := (var + mean ^ 2) / 2

/-- GLRT test statistic of `_loop_over_pixels` (`dolphin/shp/_glrt.py`):
the ratio of the two scale parameters, flipped so that it is expressed
`≥ 1` when the scales are positive:
`f_ratio = scale_1 / scale_2; if f_ratio < 1: f_ratio = 1 / f_ratio`. -/
def glrtStatistic (scale1 scale2 : ℚ) : ℚ :=
  let q := scale1 / scale2
  if q < 1 then 1 / q else q

/-- One cell of the boolean SHP mask built by `_loop_over_pixels` in
`dolphin/shp/_glrt.py` (lines 80-130): the output pixel `(outR, outC)` maps
to input centre `(r0 + outR*row_strides, c0 + outC*col_strides)` with
`r0 = row_strides // 2`; the window around the centre is clamped to the
image; the centre itself is always marked a neighbor; other cells compare
the GLRT statistic to the precomputed threshold. -/
def glrtIsShp (rows cols : ℕ) (mean var : ℕ → ℕ → ℚ)
    (halfR halfC rowStrides colStrides : ℕ) (threshold : ℚ)
    (outR outC rOff cOff : ℕ) : Bool :=
  let inR := rowStrides / 2 + outR * rowStrides
  let inC := colStrides / 2 + outC * colStrides
  let s := getSlices halfR halfC inR inC rows cols
  let inR2 := s.1.1 + rOff
  let inC2 := s.2.1 + cOff
  if inR2 < s.1.2 ∧ inC2 < s.2.2 then
    if inR2 = inR ∧ inC2 = inC then true
    else
      decide (glrtStatistic (scaleSquared (mean inR inC) (var inR inC))
        (scaleSquared (mean inR2 inC2) (var inR2 inC2)) < threshold)
  else false

/-- One cell of the SHP mask built by `_loop_over_pixels` in
`dolphin/shp/_tf_test.py` (lines 79-134): the centre is always marked a
neighbor; another cell is a neighbor iff both the Welch t-statistic and the
F-statistic fall strictly inside their two-sided critical intervals. -/
def tfIsShp (rows cols : ℕ) (mean variance : ℕ → ℕ → ℝ)
    (halfR halfC rowStrides colStrides : ℕ) (nslc : ℕ)
    (cvTLow cvTHigh cvFLow cvFHigh : ℝ)
    (outR outC rOff cOff : ℕ) : Prop :=
  let inR := rowStrides / 2 + outR * rowStrides
  let inC := colStrides / 2 + outC * colStrides
  let s := getSlices halfR halfC inR inC rows cols
  let inR2 := s.1.1 + rOff
  let inC2 := s.2.1 + cOff
  if inR2 < s.1.2 ∧ inC2 < s.2.2 then
    if inR2 = inR ∧ inC2 = inC then True
    else
      let tStat := (mean inR inC - mean inR2 inC2) /
        Real.sqrt ((variance inR inC + variance inR2 inC2) / nslc)
      let fStat := variance inR inC / variance inR2 inC2
      (cvTLow < tStat ∧ tStat < cvTHigh) ∧ (cvFLow < fStat ∧ fStat < cvFHigh)
  else False

/-- For an in-bounds output pixel the input centre row is inside the image. -/
theorem centerRow_lt (rows sy outR : ℕ) (hsy : 0 < sy) (hr : outR < rows / sy) :
    sy / 2 + outR * sy < rows := by
  have h1 : outR + 1 ≤ rows / sy := hr
  have h2 : (outR + 1) * sy ≤ rows / sy * sy := Nat.mul_le_mul_right sy h1
  have h3 : rows / sy * sy ≤ rows := Nat.div_mul_le_self rows sy
  have h4 : sy / 2 < sy := Nat.div_lt_self hsy (by norm_num)
  calc sy / 2 + outR * sy < sy + outR * sy := by omega
    _ = (outR + 1) * sy := by ring
    _ ≤ rows := le_trans h2 h3

/-- C3: under both SHP strategies (GLRT and combined t/F), for every mean
image, variance image, half window, strides and cutoff values, the window
cell corresponding to an in-bounds output pixel's own centre is always
marked homogeneous: the centre offset inside the clamped window is
`(min halfR centre_row, min halfC centre_col)`. -/
theorem estimate_neighbors_self_inclusion
    (rows cols halfR halfC sy sx nslc : ℕ)
    (meanQ varQ : ℕ → ℕ → ℚ) (θ : ℚ)
    (meanR varR : ℕ → ℕ → ℝ) (cvTL cvTH cvFL cvFH : ℝ)
    (outR outC : ℕ) (hsy : 0 < sy) (hsx : 0 < sx)
    (hr : outR < (computeOutShape rows cols sy sx).1)
    (hc : outC < (computeOutShape rows cols sy sx).2) :
    glrtIsShp rows cols meanQ varQ halfR halfC sy sx θ outR outC
      (min halfR (sy / 2 + outR * sy)) (min halfC (sx / 2 + outC * sx)) = true ∧
    tfIsShp rows cols meanR varR halfR halfC sy sx nslc cvTL cvTH cvFL cvFH
      outR outC
      (min halfR (sy / 2 + outR * sy)) (min halfC (sx / 2 + outC * sx)) := by
  have hinR : sy / 2 + outR * sy < rows := centerRow_lt rows sy outR hsy hr
  have hinC : sx / 2 + outC * sx < cols := centerRow_lt cols sx outC hsx hc
  have hR2 : (sy / 2 + outR * sy) - halfR + min halfR (sy / 2 + outR * sy) =
      sy / 2 + outR * sy := by omega
  have hC2 : (sx / 2 + outC * sx) - halfC + min halfC (sx / 2 + outC * sx) =
      sx / 2 + outC * sx := by omega
  constructor
  · unfold glrtIsShp getSlices
    simp only [hR2, hC2]
    rw [if_pos (by omega), if_pos ⟨trivial, trivial⟩]
  · unfold tfIsShp getSlices
    simp only [hR2, hC2]
    rw [if_pos (by omega), if_pos ⟨trivial, trivial⟩]
    trivial

/-- C3 witness: a concrete 1×1 image with unit strides and a 3×3 window. -/
theorem estimate_neighbors_self_inclusion_witness :
    glrtIsShp 1 1 (fun _ _ => 1) (fun _ _ => 1) 1 1 1 1 2 0 0
      (min 1 0) (min 1 0) = true ∧
    tfIsShp 1 1 (fun _ _ => 1) (fun _ _ => 1) 1 1 1 1 5 (-2) 2 (-2) 2 0 0
      (min 1 0) (min 1 0) :=
  estimate_neighbors_self_inclusion 1 1 1 1 1 1 5 (fun _ _ => 1) (fun _ _ => 1)
    2 (fun _ _ => 1) (fun _ _ => 1) (-2) 2 (-2) 2 0 0
    (by decide) (by decide) (by decide) (by decide)

/-- The flipped ratio statistic is symmetric in its two arguments when both
scales are positive, so the comparison with any cutoff is too. -/
theorem glrtStatistic_comm (a b : ℚ) (ha : 0 < a) (hb : 0 < b) :
    glrtStatistic a b = glrtStatistic b a := by
  unfold glrtStatistic
  simp only [one_div_div]
  rcases lt_trichotomy a b with h | h | h
  · rw [if_pos (by rw [div_lt_one hb]; exact h),
      if_neg (by rw [not_lt, le_div_iff₀ ha]; nlinarith)]
  · subst h
    rfl
  · rw [if_neg (by rw [not_lt, le_div_iff₀ hb]; nlinarith),
      if_pos (by rw [div_lt_one ha]; exact h)]

/-- With unit strides, the GLRT mask cell of pixel `(r1, c1)` at the window
offset of another in-window pixel `(r2, c2)` is the thresholded statistic. -/
theorem glrtIsShp_cell (rows cols halfR halfC : ℕ) (mean var : ℕ → ℕ → ℚ)
    (θ : ℚ) (r1 c1 r2 c2 : ℕ)
    (h2r : r2 < rows) (h2c : c2 < cols)
    (hw1 : r2 ≤ r1 + halfR) (hw2 : r1 ≤ r2 + halfR)
    (hw3 : c2 ≤ c1 + halfC) (hw4 : c1 ≤ c2 + halfC)
    (hne : ¬ (r2 = r1 ∧ c2 = c1)) :
    glrtIsShp rows cols mean var halfR halfC 1 1 θ r1 c1
      (r2 - (r1 - halfR)) (c2 - (c1 - halfC)) =
    decide (glrtStatistic (scaleSquared (mean r1 c1) (var r1 c1))
      (scaleSquared (mean r2 c2) (var r2 c2)) < θ) := by
  have hr0 : (1 : ℕ) / 2 + r1 * 1 = r1 := by omega
  have hc0 : (1 : ℕ) / 2 + c1 * 1 = c1 := by omega
  have hR2 : r1 - halfR + (r2 - (r1 - halfR)) = r2 := by omega
  have hC2 : c1 - halfC + (c2 - (c1 - halfC)) = c2 := by omega
  unfold glrtIsShp getSlices
  simp only [hr0, hc0, hR2, hC2]
  rw [if_pos (by omega), if_neg hne]

/-- C8: under the GLRT strategy with unit strides, for any two distinct
in-bounds pixels lying in each other's clamped windows, pixel A's mask marks
pixel B as homogeneous iff pixel B's mask marks pixel A, whenever both
pixels' Rayleigh scale parameters are positive (as they are for any genuine
mean/variance data): the test statistic is the scale ratio expressed `≥ 1`,
identical in both directions, compared against the same cutoff. -/
theorem glrt_shp_symmetric (rows cols halfR halfC : ℕ)
    (mean var : ℕ → ℕ → ℚ) (θ : ℚ) (r1 c1 r2 c2 : ℕ)
    (h1r : r1 < rows) (h1c : c1 < cols) (h2r : r2 < rows) (h2c : c2 < cols)
    (hw1 : r2 ≤ r1 + halfR) (hw2 : r1 ≤ r2 + halfR)
    (hw3 : c2 ≤ c1 + halfC) (hw4 : c1 ≤ c2 + halfC)
    (hne : (r1, c1) ≠ (r2, c2))
    (hs1 : 0 < scaleSquared (mean r1 c1) (var r1 c1))
    (hs2 : 0 < scaleSquared (mean r2 c2) (var r2 c2)) :
    glrtIsShp rows cols mean var halfR halfC 1 1 θ r1 c1
      (r2 - (r1 - halfR)) (c2 - (c1 - halfC)) =
    glrtIsShp rows cols mean var halfR halfC 1 1 θ r2 c2
      (r1 - (r2 - halfR)) (c1 - (c2 - halfC)) := by
  have hneA : ¬ (r2 = r1 ∧ c2 = c1) :=
    fun hcc => hne (by rw [hcc.1, hcc.2])
  have hneB : ¬ (r1 = r2 ∧ c1 = c2) :=
    fun hcc => hne (by rw [hcc.1, hcc.2])
  rw [glrtIsShp_cell rows cols halfR halfC mean var θ r1 c1 r2 c2
      h2r h2c hw1 hw2 hw3 hw4 hneA,
    glrtIsShp_cell rows cols halfR halfC mean var θ r2 c2 r1 c1
      h1r h1c hw2 hw1 hw4 hw3 hneB,
    glrtStatistic_comm _ _ hs1 hs2]

/-- C8 witness: two horizontally adjacent pixels of a 1×2 image with scale
parameters 1/2 and 5/2. -/
theorem glrt_shp_symmetric_witness :
    glrtIsShp 1 2 (fun _ c => c) (fun _ _ => 1) 1 1 1 1 2 0 0
      (0 - (0 - 1)) (1 - (0 - 1)) =
    glrtIsShp 1 2 (fun _ c => c) (fun _ _ => 1) 1 1 1 1 2 0 1
      (0 - (0 - 1)) (0 - (1 - 1)) :=
  glrt_shp_symmetric 1 2 1 1 (fun _ c => c) (fun _ _ => 1) 2 0 0 0 1
    (by decide) (by decide) (by decide) (by decide)
    (by decide) (by decide) (by decide) (by decide)
    (by decide) (by norm_num [scaleSquared]) (by norm_num [scaleSquared])

/-! ### Ministack planning (`dolphin/stack.py`)

Dates are numbers (`ℕ`), in ascending order of acquisition.  A file is
either a caller-provided input path or a compressed-SLC path, whose
filename carries the (reference, start, end) date triplet inside an output
folder (`format_dates`/`get_dates` from the missing `dolphin.utils` are
modelled by carrying the dates themselves).  Python list mutation is
modelled where the caller could observe it: the caller's `manual_idxs`
sequence lives in a heap of `ℕ`-lists, and the translation of
`sorted(...)`/`.pop(0)` allocates and writes in that heap. -/

/-- An output folder: the planner's base folder, or the per-ministack
subfolder named by the window's start/end dates. -/
inductive Folder where
  | base (name : ℕ)
  | sub (parent : Folder) (d0 d1 : ℕ)
deriving DecidableEq

/-- A file path in the planner's world. -/
inductive PFile where
  | input (name : ℕ)
  | comp (folder : Folder) (ref s e : ℕ)
deriving DecidableEq

/-- `CompressedSlcInfo` (`dolphin/stack.py`, lines 153-350): the fields that
`MiniStackPlanner.plan` reads.  The optional lists are `None` when the info
was parsed from a filename alone. -/
structure CompressedSlcInfo where
  referenceDate : ℕ
  startDate : ℕ
  endDate : ℕ
  realSlcFileList : Option (List PFile)
  realSlcDates : Option (List ℕ)
  compressedSlcFileList : Option (List PFile)
  outputFolder : Folder
deriving DecidableEq

/-- `CompressedSlcInfo.path`: `output_folder / filename`, the filename being
the template applied to the date triplet. -/
def CompressedSlcInfo.path (c : CompressedSlcInfo) : PFile :=
  .comp c.outputFolder c.referenceDate c.startDate c.endDate

/-- `CompressedSlcInfo.dates`: the `(reference, start, end)` triplet. -/
def CompressedSlcInfo.tripletDates (c : CompressedSlcInfo) : List ℕ :=
  [c.referenceDate, c.startDate, c.endDate]

/-- `CompressedSlcInfo.from_filename`: parse the three dates from a
compressed-SLC filename; an input path carries a single date, so parsing it
raises `ValueError` ("does not have 3 dates"). -/
def CompressedSlcInfo.fromFilename : PFile → Except String CompressedSlcInfo
  | .comp folder r s e =>
      .ok { referenceDate := r, startDate := s, endDate := e,
            realSlcFileList := none, realSlcDates := none,
            compressedSlcFileList := none, outputFolder := folder }
  | .input _ => .error "does not have 3 dates"

/-- `BaseStack` (`dolphin/stack.py`, lines 23-150): the validated fields. -/
structure BaseStack where
  fileList : List PFile
  dates : List (List ℕ)
  isCompressed : List Bool
  outputFolder : Folder
  referenceIdx : ℤ
deriving DecidableEq

/-- `MiniStackInfo` adds no fields over `BaseStack`. -/
abbrev MiniStackInfo := BaseStack

/-- `MiniStackPlanner` (`dolphin/stack.py`, line 386). -/
structure MiniStackPlanner extends BaseStack where
  maxNumCompressed : ℕ
deriving DecidableEq

/-- `BaseStack._check_lengths` (`dolphin/stack.py`, lines 70-85): empty file
list and length mismatches are `ValueError`s; a single-entry stack only
warns (the returned Bool records whether the warning fired). -/
def checkLengths (fileList : List PFile) (dates : List (List ℕ))
    (isCompressed : List Bool) : Except String Bool :=
  if fileList.length = 0 then
    .error "Cannot create empty ministack"
  else
    let warned := fileList.length = 1
    if fileList.length ≠ isCompressed.length then
      .error "file_list and is_compressed must be the same length"
    else if dates.length ≠ fileList.length then
      .error "dates and file_list must be the same length"
    else .ok warned

/-- Constructing a `MiniStackInfo` runs the pydantic validators, i.e.
`_check_lengths` (the `reference_date` keyword passed by `plan` matches no
declared field and is discarded by pydantic). -/
def mkMiniStackInfo (fileList : List PFile) (dates : List (List ℕ))
    (isCompressed : List Bool) (referenceIdx : ℤ) (outputFolder : Folder) :
    Except String MiniStackInfo := do
  let _ ← checkLengths fileList dates isCompressed
  .ok { fileList := fileList, dates := dates, isCompressed := isCompressed,
        outputFolder := outputFolder, referenceIdx := referenceIdx }

/-- Python list indexing with negative wrap-around (`lst[i]`), `none` where
Python would raise `IndexError`. -/
def pyIdx {α : Type} (l : List α) (i : ℤ) : Option α :=
  let j := if i < 0 then i + l.length else i
  if 0 ≤ j ∧ j < l.length then l[j.toNat]? else none

/-- `BaseStack.reference_date`: `dates[reference_idx][0]`.  Out-of-range
indexing raises in Python; it is unreachable from the planner flow and
modelled with a default. -/
def BaseStack.referenceDate (b : BaseStack) : ℕ :=
  ((pyIdx b.dates b.referenceIdx).getD []).headD 0

/-- `BaseStack.compressed_slc_file_list`. -/
def BaseStack.compressedSlcFileList (b : BaseStack) : List PFile :=
  ((b.fileList.zip b.isCompressed).filter (fun q => q.2)).map (fun q => q.1)

/-- `BaseStack.first_real_slc_idx`: index of the first non-compressed entry,
`ValueError` when every entry is compressed. -/
def BaseStack.firstRealSlcIdx (b : BaseStack) : Except String ℕ :=
  match b.isCompressed.findIdx? (fun c => !c) with
  | some i => .ok i
  | none => .error "No real SLCs in ministack"

/-- `MiniStackInfo.get_compressed_slc_info` (`dolphin/stack.py`, lines
359-383): split the entries into real and compressed ones and build the
`CompressedSlcInfo` of this ministack's output.  The `_untuple_dates`
validator rejects a real entry carrying more than one date; `_check_lengths`
of `CompressedSlcInfo` cannot fire because the two real lists are built in
step. -/
def getCompressedSlcInfo (m : MiniStackInfo) : Except String CompressedSlcInfo := do
  let entries := m.fileList.zip (m.dates.zip m.isCompressed)
  let realEntries := entries.filter (fun q => !q.2.2)
  let compEntries := entries.filter (fun q => q.2.2)
  let realSlcDates ← realEntries.mapM (fun q =>
    if q.2.1.length > 1 then
      .error "Cannot pass multiple dates for a compressed SLC"
    else
      .ok (q.2.1.headD 0))
  .ok { referenceDate := m.referenceDate,
        startDate := realSlcDates.headD 0,
        endDate := (realSlcDates.getLast?).getD 0,
        realSlcFileList := some (realEntries.map (fun q => q.1)),
        realSlcDates := some realSlcDates,
        compressedSlcFileList := some (compEntries.map (fun q => q.1)),
        outputFolder := m.outputFolder }

/-- Python slice `lst[-m:]` (note `lst[-0:]` is the whole list). -/
def pySliceLast {α : Type} (l : List α) (m : ℕ) : List α :=
  if m = 0 then l else l.drop (l.length - m)

/-- Python `range(start, stop, step)` for a positive step. -/
def pyRange (start stop step : ℕ) : List ℕ :=
  (List.range ((stop - start + step - 1) / step)).map (fun k => start + k * step)

/-- Indices where the flag list is `True`, last one:
`np.where(combined_is_compressed)[0][-1]`, `none` on the `IndexError`. -/
def lastTrueIdx (l : List Bool) : Option ℕ :=
  (((List.range l.length).filter (fun i => l.getD i false)).getLast?)

/-- One iteration of the `for full_stack_idx in ministack_starts` loop of
`MiniStackPlanner.plan` (`dolphin/stack.py`, lines 415-467): build the
window's `MiniStackInfo` from the current compressed lineage and the local
(already sorted) manual reference indices, and derive the compressed SLC it
will produce.  Returns the ministack, the new lineage entry, and the manual
list after the possible `pop(0)`. -/
def planWindowCore (p : MiniStackPlanner) (ministackSize : ℕ) (s : ℕ)
    (compInfos : List CompressedSlcInfo) (manual : List ℕ) :
    Except String (MiniStackInfo × CompressedSlcInfo × List ℕ) := do
  let curFiles := (p.fileList.drop s).take ministackSize
  let curDates := (p.dates.drop s).take ministackSize
  let compSlcFiles := compInfos.map CompressedSlcInfo.path
  let curCompSlcFiles := pySliceLast compSlcFiles p.maxNumCompressed
  let combinedFiles := curCompSlcFiles ++ curFiles
  let combinedDates :=
    (pySliceLast compInfos p.maxNumCompressed).map CompressedSlcInfo.tripletDates
      ++ curDates
  let numCcslc := curCompSlcFiles.length
  let combinedIsCompressed :=
    List.replicate numCcslc true ++ ((p.isCompressed.drop s).take ministackSize)
  -- reference_idx = np.where(combined_is_compressed)[0][-1], or 0 on IndexError
  let refIdx0 : ℤ := ((lastTrueIdx combinedIsCompressed).getD 0 : ℕ)
  -- manual override: if manual_idx_list and cur_slice.stop > manual_idx_list[0]
  let (refIdx, manualAfter) :=
    match manual with
    | [] => (refIdx0, ([] : List ℕ))
    | m0 :: rest =>
        if s + ministackSize > m0 then
          (((m0 : ℤ) - (s : ℤ) + (numCcslc : ℤ)), rest)
        else (refIdx0, manual)
  let d0 := (curDates.headD []).headD 0
  let d1 := ((curDates.getLast?).getD []).getLast?.getD 0
  let curOutputFolder := Folder.sub p.outputFolder d0 d1
  let ms ← mkMiniStackInfo combinedFiles combinedDates combinedIsCompressed
    refIdx curOutputFolder
  let curCompSlc ← getCompressedSlcInfo ms
  .ok (ms, curCompSlc, manualAfter)

/-- The planning loop, with the manual-index list threaded as a value. -/
def planLoopPure (p : MiniStackPlanner) (ministackSize : ℕ) :
    List ℕ → List MiniStackInfo × List CompressedSlcInfo × List ℕ →
    Except String (List MiniStackInfo × List CompressedSlcInfo × List ℕ)
  | [], acc => .ok acc
  | s :: rest, (mss, infos, manual) =>
      match planWindowCore p ministackSize s infos manual with
      | .error e => .error e
      | .ok (ms, info, manual') =>
          planLoopPure p ministackSize rest (mss ++ [ms], infos ++ [info], manual')

/-- `MiniStackPlanner.plan` (`dolphin/stack.py`, lines 391-469):
`ministack_size < 2` is fatal; pre-existing compressed SLCs in the
planner's own file list seed the lineage via `from_filename`; the real
acquisitions are walked in windows of `ministack_size` starting at the
first real index. -/
def plan (p : MiniStackPlanner) (ministackSize : ℕ)
    (manualIdxs : Option (List ℕ)) : Except String (List MiniStackInfo) :=
  if ministackSize < 2 then
    .error "Cannot create ministacks with size < 2"
  else
    let manualList := (manualIdxs.getD []).insertionSort (· ≤ ·)
    match p.toBaseStack.compressedSlcFileList.mapM
        CompressedSlcInfo.fromFilename with
    | .error e => .error e
    | .ok seedInfos =>
        match p.toBaseStack.firstRealSlcIdx with
        | .error e => .error e
        | .ok firstReal =>
            let starts := pyRange firstReal p.fileList.length ministackSize
            match planLoopPure p ministackSize starts
                ([], seedInfos, manualList) with
            | .error e => .error e
            | .ok acc => .ok acc.1

/-- Heap of Python list-of-int objects.  It gives the caller's
`manual_idxs` sequence an identity that the mutating list operations of
`plan` (the `pop(0)` calls) can target, so that freedom from side effects
is a theorem rather than a modelling artifact. -/
structure PlanHeapSt where
  heap : ℕ → List ℕ
  next : ℕ

/-- Allocate a fresh list object. -/
def halloc (st : PlanHeapSt) (v : List ℕ) : ℕ × PlanHeapSt :=
  (st.next,
   { heap := fun a => if a = st.next then v else st.heap a, next := st.next + 1 })

/-- Overwrite the list object at an address (in-place list mutation). -/
def hwrite (st : PlanHeapSt) (a : ℕ) (v : List ℕ) : PlanHeapSt :=
  { heap := fun x => if x = a then v else st.heap x, next := st.next }

@[simp] theorem hwrite_heap_same (st : PlanHeapSt) (a : ℕ) (v : List ℕ) :
    (hwrite st a v).heap a = v := by
  simp [hwrite]

theorem hwrite_heap_other (st : PlanHeapSt) (a b : ℕ) (v : List ℕ)
    (h : b ≠ a) : (hwrite st a v).heap b = st.heap b := by
  simp [hwrite, h]

@[simp] theorem hwrite_next (st : PlanHeapSt) (a : ℕ) (v : List ℕ) :
    (hwrite st a v).next = st.next := by
  simp [hwrite]

theorem hwrite_self (st : PlanHeapSt) (a : ℕ) :
    hwrite st a (st.heap a) = st := by
  cases st with
  | mk h n =>
      simp only [hwrite, PlanHeapSt.mk.injEq, and_true]
      funext x
      split
      · next hx => rw [hx]
      · rfl

theorem hwrite_hwrite (st : PlanHeapSt) (a : ℕ) (v w : List ℕ) :
    hwrite (hwrite st a v) a w = hwrite st a w := by
  simp only [hwrite, PlanHeapSt.mk.injEq, and_true]
  funext x
  split <;> rfl

/-- The planning loop against the heap: the local `manual_idx_list` lives at
`localAddr` and each `pop(0)` writes through that address. -/
def planLoopHeap (p : MiniStackPlanner) (ministackSize localAddr : ℕ) :
    List ℕ → List MiniStackInfo × List CompressedSlcInfo → PlanHeapSt →
    Except String ((List MiniStackInfo × List CompressedSlcInfo) × PlanHeapSt)
  | [], acc, st => .ok (acc, st)
  | s :: rest, (mss, infos), st =>
      match planWindowCore p ministackSize s infos (st.heap localAddr) with
      | .error e => .error e
      | .ok (ms, info, manual') =>
          planLoopHeap p ministackSize localAddr rest
            (mss ++ [ms], infos ++ [info]) (hwrite st localAddr manual')

/-- `MiniStackPlanner.plan` with the caller's `manual_idxs` given by its
address: `sorted(manual_idxs or [])` allocates the local sorted copy, and
the loop mutates only that copy. -/
def planHeap (p : MiniStackPlanner) (ministackSize : ℕ) (manualAddr : ℕ)
    (st : PlanHeapSt) : Except String (List MiniStackInfo × PlanHeapSt) :=
  if ministackSize < 2 then
    .error "Cannot create ministacks with size < 2"
  else
    let la := halloc st ((st.heap manualAddr).insertionSort (· ≤ ·))
    match p.toBaseStack.compressedSlcFileList.mapM
        CompressedSlcInfo.fromFilename with
    | .error e => .error e
    | .ok seedInfos =>
        match p.toBaseStack.firstRealSlcIdx with
        | .error e => .error e
        | .ok firstReal =>
            let starts := pyRange firstReal p.fileList.length ministackSize
            match planLoopHeap p ministackSize la.1 starts
                ([], seedInfos) la.2 with
            | .error e => .error e
            | .ok accSt => .ok (accSt.1.1, accSt.2)

/-- The heap-instrumented loop agrees with the value-threaded loop and its
final heap is the input heap with only the local list's address updated. -/
theorem planLoopHeap_eq (p : MiniStackPlanner) (ministackSize localAddr : ℕ) :
    ∀ (starts : List ℕ) (mss : List MiniStackInfo)
      (infos : List CompressedSlcInfo) (st : PlanHeapSt),
      planLoopHeap p ministackSize localAddr starts (mss, infos) st =
        (planLoopPure p ministackSize starts (mss, infos, st.heap localAddr)).map
          (fun acc => ((acc.1, acc.2.1), hwrite st localAddr acc.2.2)) := by
  intro starts
  induction starts with
  | nil =>
      intro mss infos st
      simp [planLoopHeap, planLoopPure, Except.map, hwrite_self]
  | cons s rest ih =>
      intro mss infos st
      simp only [planLoopHeap, planLoopPure]
      cases h : planWindowCore p ministackSize s infos (st.heap localAddr) with
      | error e => simp [Except.map]
      | ok msInfoManual =>
          obtain ⟨ms, info, manual'⟩ := msInfoManual
          simp only
          rw [ih]
          simp [hwrite_hwrite]

/-- C10: `MiniStackPlanner.plan` has no side effects on caller-visible
state: whenever the heap-instrumented translation succeeds, every list
object the caller held before the call (address below the allocation
bound), in particular the `manual_idxs` sequence that the loop sorts and
pops only through a private copy, is unchanged, and the result coincides
with the pure function of the planner's (unchanged, since only read)
fields and the manual sequence's initial value. -/
theorem plan_no_side_effects (p : MiniStackPlanner)
    (ministackSize manualAddr : ℕ) (st : PlanHeapSt)
    (r : List MiniStackInfo) (st' : PlanHeapSt)
    (h : planHeap p ministackSize manualAddr st = .ok (r, st')) :
    (∀ a, a < st.next → st'.heap a = st.heap a) ∧
    st.next ≤ st'.next ∧
    plan p ministackSize (some (st.heap manualAddr)) = .ok r := by
  simp only [planHeap] at h
  split at h
  · simp at h
  next hsz =>
    split at h
    · simp at h
    next seeds hseed =>
      split at h
      · simp at h
      next firstReal hfr =>
        rw [planLoopHeap_eq] at h
        have hla : (halloc st ((st.heap manualAddr).insertionSort (· ≤ ·))).2.heap
            (halloc st ((st.heap manualAddr).insertionSort (· ≤ ·))).1 =
            (st.heap manualAddr).insertionSort (· ≤ ·) := by
          simp [halloc]
        rw [hla] at h
        cases hloop : planLoopPure p ministackSize
            (pyRange firstReal p.fileList.length ministackSize)
            ([], seeds, (st.heap manualAddr).insertionSort (· ≤ ·)) with
        | error e =>
            rw [hloop] at h
            simp [Except.map] at h
        | ok acc =>
            rw [hloop] at h
            simp only [Except.map, Except.ok.injEq, Prod.mk.injEq] at h
            obtain ⟨hr, hst⟩ := h
            refine ⟨?_, ?_, ?_⟩
            · intro a ha
              rw [← hst, hwrite_heap_other _ _ _ _ (by simp [halloc]; omega)]
              simp only [halloc]
              exact if_neg (by omega)
            · rw [← hst]
              simp [halloc, hwrite]
            · simp only [plan, Option.getD_some]
              rw [if_neg hsz, hseed]
              simp only
              rw [hfr]
              simp only
              rw [hloop]
              simp only
              rw [hr]

/-- Concrete four-acquisition planner exercising the frame theorem. -/
def demoPlanner : MiniStackPlanner :=
  { fileList := [.input 0, .input 1, .input 2, .input 3],
    dates := [[10], [11], [12], [13]],
    isCompressed := [false, false, false, false],
    outputFolder := .base 0,
    referenceIdx := 0,
    maxNumCompressed := 5 }

/-- Concrete heap: the caller's `manual_idxs` list `[3, 1]` at address 0. -/
def demoHeapSt : PlanHeapSt := { heap := fun _ => [3, 1], next := 1 }

/-- Result list of a successful `planHeap` call. -/
def exceptOkPlanList (e : Except String (List MiniStackInfo × PlanHeapSt)) :
    List MiniStackInfo :=
  match e with
  | .ok q => q.1
  | .error _ => []

/-- Final heap state of a successful `planHeap` call. -/
def exceptOkPlanSt (e : Except String (List MiniStackInfo × PlanHeapSt))
    (d : PlanHeapSt) : PlanHeapSt :=
  match e with
  | .ok q => q.2
  | .error _ => d

/-- C10 witness: the frame theorem applied to the concrete planner, heap and
ministack size 2 (where both manual indices get popped). -/
theorem plan_no_side_effects_witness :
    (∀ a, a < demoHeapSt.next →
      (exceptOkPlanSt (planHeap demoPlanner 2 0 demoHeapSt) demoHeapSt).heap a =
        demoHeapSt.heap a) ∧
    demoHeapSt.next ≤
      (exceptOkPlanSt (planHeap demoPlanner 2 0 demoHeapSt) demoHeapSt).next ∧
    plan demoPlanner 2 (some (demoHeapSt.heap 0)) =
      .ok (exceptOkPlanList (planHeap demoPlanner 2 0 demoHeapSt)) :=
  plan_no_side_effects demoPlanner 2 0 demoHeapSt
    (exceptOkPlanList (planHeap demoPlanner 2 0 demoHeapSt))
    (exceptOkPlanSt (planHeap demoPlanner 2 0 demoHeapSt) demoHeapSt)
    (by rfl)

/-- The 25 real (uncompressed) acquisitions scenario planner. -/
def planner25 : MiniStackPlanner :=
  { fileList := (List.range 25).map PFile.input,
    dates := (List.range 25).map (fun i => [i]),
    isCompressed := List.replicate 25 false,
    outputFolder := .base 0,
    referenceIdx := 0,
    maxNumCompressed := 5 }

/-- C2 counterexample: planning 25 real acquisitions with
`ministack_size = 10` and `max_num_compressed = 5` yields entry lists of
lengths 10, 11 and 7 — not 10, 11 and 9 as claimed: the third window holds
only the 5 remaining real acquisitions plus the 2 compressed ones. -/
theorem plan_25_by_10_sizes_not_10_11_9 :
    (plan planner25 10 none).map
      (fun l => l.map (fun m => m.fileList.length)) = .ok [10, 11, 7] ∧
    (Except.ok [10, 11, 7] : Except String (List ℕ)) ≠ .ok [10, 11, 9] :=
  ⟨rfl, by simp⟩

/-- C2 (amended): planning 25 real acquisitions with `ministack_size = 10`
and `max_num_compressed = 5` produces exactly 3 ministacks whose entry
lists have lengths 10, 11 and 7, where batches 2 and 3 prepend 1 and 2
compressed acquisitions respectively. -/
theorem plan_25_by_10_sizes :
    (plan planner25 10 none).map (fun l => l.length) = .ok 3 ∧
    (plan planner25 10 none).map
      (fun l => l.map (fun m => m.fileList.length)) = .ok [10, 11, 7] ∧
    (plan planner25 10 none).map
      (fun l => l.map (fun m => (m.isCompressed.filter (fun b => b)).length)) =
      .ok [0, 1, 2] :=
  ⟨rfl, rfl, rfl⟩

/-- C7: configuration errors fail fast: `MiniStackPlanner.plan` errors
whenever `ministack_size < 2`; constructing any stack errors on an empty
file list or when `is_compressed` or `dates` differ in length from
`file_list`; a consistent length-1 stack passes validation with only a
warning (the returned flag). -/
theorem config_errors_fail_fast :
    (∀ (p : MiniStackPlanner) (size : ℕ) (manual : Option (List ℕ)),
      size < 2 →
        plan p size manual = .error "Cannot create ministacks with size < 2") ∧
    (∀ (dates : List (List ℕ)) (isComp : List Bool),
      checkLengths [] dates isComp = .error "Cannot create empty ministack") ∧
    (∀ (fl : List PFile) (dates : List (List ℕ)) (isComp : List Bool),
      fl.length ≠ isComp.length ∨ dates.length ≠ fl.length →
        ∀ w, checkLengths fl dates isComp ≠ .ok w) ∧
    (∀ (f : PFile) (d : List ℕ) (b : Bool),
      checkLengths [f] [d] [b] = .ok true) := by
  refine ⟨?_, ?_, ?_, ?_⟩
  · intro p size manual hsz
    simp [plan, hsz]
  · intro dates isComp
    simp [checkLengths]
  · intro fl dates isComp hmis w hok
    simp only [checkLengths] at hok
    split at hok
    · exact absurd hok (by simp)
    · split at hok
      · exact absurd hok (by simp)
      · split at hok
        · exact absurd hok (by simp)
        · next h2 h3 =>
            rcases hmis with hm | hm
            · exact h2 hm
            · exact h3 hm
  · intro f d b
    simp [checkLengths]

/-- C7 witness: the four validation behaviours at concrete inputs. -/
theorem config_errors_fail_fast_witness :
    plan planner25 1 none = .error "Cannot create ministacks with size < 2" ∧
    checkLengths [] [] [] = .error "Cannot create empty ministack" ∧
    checkLengths [.input 0] [] [] ≠ .ok true ∧
    checkLengths [.input 0] [[0]] [false] = .ok true :=
  ⟨config_errors_fail_fast.1 planner25 1 none (by decide),
   config_errors_fail_fast.2.1 [] [],
   config_errors_fail_fast.2.2.1 [.input 0] [] [] (by decide) true,
   config_errors_fail_fast.2.2.2 (.input 0) [0] false⟩

/-! ### Sequential estimator (`dolphin/sequential.py`)

The file bookkeeping of `run_evd_sequential`, modelled symbolically: the
loop over ministacks records which files each batch creates (per-batch
phase-linked SLC outputs, one compressed SLC, one temporal-coherence
raster), and the final phase either renames the lone batch's outputs into
the final folder or runs the reconciliation (datum adjustment) pass. -/

/-- Files created by `run_evd_sequential`, identified by batch index and by
the index of the acquisition they belong to. -/
inductive SeqFile where
  | outputSlc (batch : ℕ) (slcIdx : ℕ)
  | compSlc (batch : ℕ)
  | tcorr (batch : ℕ)
  | adjustedComp (batch : ℕ)
deriving DecidableEq

/-- The externally visible actions of the final phase of
`run_evd_sequential` (lines 202-312): renaming a file into the final output
folder, running the adjustment phase linking over the compressed SLCs,
compensating one output SLC with an adjustment raster, and averaging the
temporal-coherence rasters. -/
inductive SeqAction where
  | rename (src : SeqFile)
  | runAdjustmentEvd (inputs : List SeqFile)
  | compensate (slc : SeqFile) (adjustment : SeqFile)
  | averageTcorr (inputs : List SeqFile)
deriving DecidableEq

/-- Per-batch file lists accumulated by the ministack loop. -/
structure SeqLoopOut where
  outputSlcFiles : List (List SeqFile)
  compSlcFiles : List SeqFile
  tcorrFiles : List SeqFile
deriving DecidableEq

/-- The ministack loop of `run_evd_sequential` (lines 72-200) over `n`
acquisitions in windows of `ministack_size`: batch `mini_idx` starting at
`full_stack_idx` creates one phase-linked output per real acquisition of
the window (`setup_output_folder(..., start_idx=mini_idx)` skips the
prepended compressed SLCs), one compressed SLC and one temporal-coherence
file. -/
def seqLoopOut (n size : ℕ) : SeqLoopOut :=
  let starts := (pyRange 0 n size).enum
  { outputSlcFiles := starts.map (fun q =>
      (List.range (min size (n - q.2))).map (fun j => SeqFile.outputSlc q.1 (q.2 + j))),
    compSlcFiles := starts.map (fun q => SeqFile.compSlc q.1),
    tcorrFiles := starts.map (fun q => SeqFile.tcorr q.1) }

/-- The final phase of `run_evd_sequential` (lines 202-312): with exactly
one compressed SLC the lone batch's outputs and temporal-coherence file are
renamed into the final folder and the function returns; otherwise the
adjustment phase linking runs over the compressed stack, every per-batch
output SLC is compensated with its batch's adjustment raster, and the
temporal-coherence rasters are averaged. -/
def seqFinal (L : SeqLoopOut) : List SeqAction :=
  if L.compSlcFiles.length = 1 then
    (L.outputSlcFiles.headD []).map SeqAction.rename ++
      [SeqAction.rename (L.tcorrFiles.headD (SeqFile.tcorr 0))]
  else
    [SeqAction.runAdjustmentEvd L.compSlcFiles] ++
      (L.outputSlcFiles.enum.map (fun q =>
        q.2.map (fun f => SeqAction.compensate f (SeqFile.adjustedComp q.1)))).flatten ++
      [SeqAction.averageTcorr L.tcorrFiles]

/-- `run_evd_sequential` as the sequence of externally visible file
actions. -/
def runEvdSequentialActions (n size : ℕ) : List SeqAction :=
  seqFinal (seqLoopOut n size)

/-- A single window covers `0 < n ≤ size` acquisitions. -/
theorem pyRange_single (n size : ℕ) (hn : 0 < n) (hns : n ≤ size) :
    pyRange 0 n size = [0] := by
  unfold pyRange
  have hdiv : (n - 0 + size - 1) / size = 1 :=
    Nat.div_eq_of_lt_le (by omega) (by omega)
  rw [hdiv]
  simp [List.range_succ]

/-- C5: when the sequential estimator produces exactly one ministack
(`0 < n ≤ ministack_size`), the reconciliation pass is skipped entirely:
the final actions are exactly renames of the lone batch's phase-linked SLC
outputs followed by the rename of its temporal-coherence file, and no
adjustment raster is computed (every action is a rename). -/
theorem single_ministack_rename_only (n size : ℕ) (hn : 0 < n)
    (hns : n ≤ size) :
    (seqLoopOut n size).compSlcFiles.length = 1 ∧
    runEvdSequentialActions n size =
      ((List.range n).map (fun j => SeqAction.rename (SeqFile.outputSlc 0 j))) ++
        [SeqAction.rename (SeqFile.tcorr 0)] ∧
    (∀ a ∈ runEvdSequentialActions n size, ∃ f, a = SeqAction.rename f) := by
  have hr : pyRange 0 n size = [0] := pyRange_single n size hn hns
  have hmin : min size n = n := by omega
  have h1 : (seqLoopOut n size).compSlcFiles.length = 1 := by
    simp [seqLoopOut, hr]
  have h2 : runEvdSequentialActions n size =
      ((List.range n).map (fun j => SeqAction.rename (SeqFile.outputSlc 0 j))) ++
        [SeqAction.rename (SeqFile.tcorr 0)] := by
    simp [runEvdSequentialActions, seqFinal, seqLoopOut, hr, hmin, List.enum,
      Function.comp]
  refine ⟨h1, h2, ?_⟩
  intro a ha
  rw [h2] at ha
  rcases List.mem_append.mp ha with hm | hm
  · obtain ⟨j, _, hj⟩ := List.mem_map.mp hm
    exact ⟨SeqFile.outputSlc 0 j, hj.symm⟩
  · simp only [List.mem_singleton] at hm
    exact ⟨SeqFile.tcorr 0, hm⟩

/-- C5 witness: three acquisitions with ministack size five. -/
theorem single_ministack_rename_only_witness :
    (seqLoopOut 3 5).compSlcFiles.length = 1 ∧
    runEvdSequentialActions 3 5 =
      ((List.range 3).map (fun j => SeqAction.rename (SeqFile.outputSlc 0 j))) ++
        [SeqAction.rename (SeqFile.tcorr 0)] ∧
    (∀ a ∈ runEvdSequentialActions 3 5, ∃ f, a = SeqAction.rename f) :=
  single_ministack_rename_only 3 5 (by decide) (by decide)

/-! ### Stack reading (`dolphin/_readers.py`)

`RasterStack.__getitem__` (lines 160-187): the requested bands are resolved
from the key, then the per-band window reads either run sequentially
(`num_threads == 0`) or through a thread pool.  `ThreadPoolExecutor.map`
yields results in submission order regardless of how the pool interleaves
execution; the interleaving is modelled by an explicit completion schedule:
tasks execute in schedule order, and the gather step reassembles the
results by submission index.  The window arguments and the per-band arrays
are abstract (`np.stack(..., axis=-1)`, identical in both branches, is a
deterministic function of the gathered list). -/

/-- A Python `slice` object. -/
structure PySlice where
  start : Option ℤ
  stop : Option ℤ
  step : Option ℤ
deriving DecidableEq

/-- CPython `slice.indices(n)` for a nonzero step: clamp the endpoints to
the valid range for the sign of the step. -/
def PySlice.indices (s : PySlice) (n : ℕ) : ℤ × ℤ × ℤ :=
  let step := s.step.getD 1
  if 0 < step then
    let start := match s.start with
      | none => 0
      | some v => if v < 0 then max (v + n) 0 else min v n
    let stop := match s.stop with
      | none => n
      | some v => if v < 0 then max (v + n) 0 else min v n
    (start, stop, step)
  else
    let start := match s.start with
      | none => (n : ℤ) - 1
      | some v => if v < 0 then max (v + n) (-1) else min v ((n : ℤ) - 1)
    let stop := match s.stop with
      | none => -1
      | some v => if v < 0 then max (v + n) (-1) else min v ((n : ℤ) - 1)
    (start, stop, step)

/-- Number of elements of Python `range(start, stop, step)`, step nonzero. -/
def intRangeLen (start stop step : ℤ) : ℕ :=
  if 0 < step then ((stop - start + step - 1) / step).toNat
  else ((start - stop + (-step) - 1) / (-step)).toNat

/-- Python `range(start, stop, step)` over the integers, step nonzero. -/
def intRange (start stop step : ℤ) : List ℤ :=
  (List.range (intRangeLen start stop step)).map (fun k => start + k * step)

/-- The band part of a `(bands, rows, cols)` key: an integer or a slice
(any other type raises `ValueError` in the source). -/
inductive BandKey where
  | int (i : ℤ)
  | slice (s : PySlice)
deriving DecidableEq

/-- Band resolution of `RasterStack.__getitem__`: a slice becomes
`list(range(*bands.indices(len(self))))`, an integer the singleton list
(unnormalised: the read itself applies the negative wrap-around). -/
def resolveBands (bk : BandKey) (n : ℕ) : Except String (List ℤ) :=
  match bk with
  | .int i => .ok [i]
  | .slice s =>
      if s.step.getD 1 = 0 then .error "slice step cannot be zero"
      else
        let q := s.indices n
        .ok (intRange q.1 q.2.1 q.2.2)

/-- A pool running pure tasks: execute them in completion-schedule order,
then gather the results by submission index, as `ThreadPoolExecutor.map`
does. -/
def runConcurrent {β : Type} (tasks : List (Unit → β)) (schedule : List ℕ) :
    List β :=
  let executed := schedule.filterMap (fun i =>
    (tasks[i]?).map (fun t => (i, t ())))
  (List.range tasks.length).filterMap (fun i =>
    (executed.find? (fun q => q.1 == i)).map (fun q => q.2))

/-- Gathering over `range` of in-range optional lookups is just `map`. -/
theorem range_filterMap_getElem {γ β : Type} (l : List γ) (g : γ → β) :
    (List.range l.length).filterMap (fun i => (l[i]?).map g) = l.map g := by
  induction l with
  | nil => simp
  | cons a t ih =>
      rw [List.length_cons, List.range_succ_eq_map, List.filterMap_cons]
      simp only [List.getElem?_cons_zero, Option.map_some']
      rw [List.filterMap_map, List.map_cons]
      congr 1
      rw [← ih]
      apply List.filterMap_congr
      intro i _
      simp [Function.comp, List.getElem?_cons_succ]

/-- Running pure tasks under any completion order that is a permutation of
the submission order yields the sequential result. -/
theorem runConcurrent_perm {β : Type} (tasks : List (Unit → β))
    (schedule : List ℕ) (hp : schedule.Perm (List.range tasks.length)) :
    runConcurrent tasks schedule = tasks.map (fun t => t ()) := by
  unfold runConcurrent
  have hfind : ∀ i (t : Unit → β), tasks[i]? = some t →
      (schedule.filterMap (fun j => (tasks[j]?).map (fun u => (j, u ())))).find?
        (fun q => q.1 == i) = some (i, t ()) := by
    intro i t ht
    have hi : i ∈ schedule := by
      rw [hp.mem_iff, List.mem_range]
      exact (List.getElem?_eq_some_iff.mp ht).1
    have hmem : (i, t ()) ∈ schedule.filterMap
        (fun j => (tasks[j]?).map (fun u => (j, u ()))) := by
      rw [List.mem_filterMap]
      exact ⟨i, hi, by rw [ht]; rfl⟩
    have hsome : ((schedule.filterMap
        (fun j => (tasks[j]?).map (fun u => (j, u ())))).find?
          (fun q => q.1 == i)).isSome := by
      rw [List.find?_isSome]
      exact ⟨(i, t ()), hmem, by simp⟩
    obtain ⟨q, hq⟩ := Option.isSome_iff_exists.mp hsome
    have hpq : q.1 = i := by
      have := List.find?_some hq
      simpa using this
    have hqmem := List.mem_of_find?_eq_some hq
    rw [List.mem_filterMap] at hqmem
    obtain ⟨j, _, hj⟩ := hqmem
    cases htj : tasks[j]? with
    | none => rw [htj] at hj; simp at hj
    | some u =>
        rw [htj] at hj
        have hj2 : ((j, u ()) : ℕ × β) = q := Option.some.inj hj
        have hji : j = i := by
          have h4 : q.1 = j := by rw [← hj2]
          omega
        subst hji
        rw [ht] at htj
        cases htj
        rw [hq, ← hj2]
  rw [← range_filterMap_getElem tasks (fun t => t ())]
  apply List.filterMap_congr
  intro i hi
  rw [List.mem_range] at hi
  obtain ⟨t, ht⟩ : ∃ t, tasks[i]? = some t := by
    rw [List.getElem?_eq_getElem hi]
    exact ⟨_, rfl⟩
  rw [hfind i t ht, ht]
  rfl

/-- `RasterStack.__getitem__` on a `(bands, rows, cols)` key, returning the
ordered list of per-band window reads (the subsequent
`np.stack(..., axis=-1)` is common to both branches).  `none` entries model
reads whose band index is out of range (`IndexError` in Python).
`numThreads = 0` reads the bands sequentially; otherwise the reads run in a
pool whose completion order is `schedule`. -/
def rasterStackGetItem {κ α : Type} (readers : List (κ → κ → α))
    (numThreads : ℕ) (schedule : List ℕ) (bands : BandKey) (rows cols : κ) :
    Except String (List (Option α)) :=
  match resolveBands bands readers.length with
  | .error e => .error e
  | .ok bandIdxs =>
      let tasks := bandIdxs.map
        (fun i => fun _ : Unit => (pyIdx readers i).map (fun rd => rd rows cols))
      if numThreads = 0 then
        .ok (tasks.map (fun t => t ()))
      else
        .ok (runConcurrent tasks schedule)

/-- C9: for every raster stack, every band key and window, and every thread
count, the array assembled by `__getitem__` is sample-identical to the
sequential (`num_threads = 0`) read, for any completion order of the
concurrent reads: the bands are gathered in index order independently of
thread count and completion order. -/
theorem raster_stack_getitem_deterministic {κ α : Type}
    (readers : List (κ → κ → α)) (numThreads : ℕ) (schedule : List ℕ)
    (bands : BandKey) (rows cols : κ)
    (hperm : ∀ bandIdxs, resolveBands bands readers.length = .ok bandIdxs →
      schedule.Perm (List.range bandIdxs.length)) :
    rasterStackGetItem readers numThreads schedule bands rows cols =
      rasterStackGetItem readers 0 [] bands rows cols := by
  unfold rasterStackGetItem
  cases hres : resolveBands bands readers.length with
  | error e => rfl
  | ok bandIdxs =>
      cases numThreads with
      | zero => rfl
      | succ k =>
          exact congrArg Except.ok (runConcurrent_perm _ _
            (by simpa using hperm bandIdxs hres))

/-- C9 witness: a two-band stack read with the completion order reversed. -/
theorem raster_stack_getitem_deterministic_witness :
    rasterStackGetItem [fun _ _ => 10, fun _ _ => 20] 4 [1, 0]
      (.slice ⟨none, none, none⟩) (0 : ℕ) (0 : ℕ) =
    rasterStackGetItem [fun _ _ => 10, fun _ _ => 20] 0 []
      (.slice ⟨none, none, none⟩) (0 : ℕ) (0 : ℕ) :=
  raster_stack_getitem_deterministic [fun _ _ => (10 : ℕ), fun _ _ => 20] 4
    [1, 0] (.slice ⟨none, none, none⟩) 0 0
    (by
      intro bandIdxs hb
      have hb2 : bandIdxs = [0, 1] := by
        have h3 : (Except.ok [(0 : ℤ), 1] : Except String (List ℤ)) =
            Except.ok bandIdxs := by
          rw [← hb]
          rfl
        exact (Except.ok.inj h3).symm
      rw [hb2]
      decide)

/-! ### Compression (`dolphin/phase_link/_compress.py`)

`compress` per pixel, for matched stack/estimate shapes (unit strides),
where `upsample_nearest` — in `dolphin.utils`, not included in the sources;
modelled from the spec as nearest-neighbour upsampling of the estimate to
the raw stack's shape — is the identity.  A NaN output is `none`; the
inputs are NaN-free complex samples, so `np.nansum`/`np.nanmean` reduce to
plain sums and means. -/

/-- Complex L2 norm across time of one pixel of the phase estimate:
`pl_norm = np.linalg.norm(pl_estimate_upsampled, axis=0)`. -/
noncomputable def pixelNorm (pl : List ℂ) : ℝ :=
  Real.sqrt ((pl.map (fun z => Complex.abs z ^ 2)).sum)

section
open Classical

/-- One pixel of `compress` (`dolphin/phase_link/_compress.py`, lines 9-46):
zero-norm pixels are marked NaN (`pl_norm[pl_norm == 0] = np.nan`), which
propagates to a NaN output; otherwise the output is
`magnitude * exp(1j * phase)` with
`phase = np.angle(np.nansum(slc_stack * np.conjugate(pl), axis=0) / pl_norm)`
and the magnitude the supplied `slc_mean`, or
`np.nanmean(np.abs(slc_stack), axis=0)` when none is given. -/
noncomputable def compress (slc pl : List ℂ) (slcMean : Option ℝ) : Option ℂ :=
  let plNorm := pixelNorm pl
  if plNorm = 0 then none
  else
    let phase := Complex.arg
      ((((slc.zip pl).map (fun q => q.1 * (starRingEnd ℂ) q.2)).sum) /
        (plNorm : ℂ))
    let mag := slcMean.getD (((slc.map Complex.abs).sum) / slc.length)
    some ((mag : ℂ) * Complex.exp (Complex.I * phase))

end

/-- Sum of a list divided pointwise equals the divided sum. -/
theorem sum_map_div {α : Type} (l : List α) (f : α → ℂ) (r : ℂ) :
    (l.map (fun x => f x / r)).sum = (l.map f).sum / r := by
  induction l with
  | nil => simp
  | cons a t ih => simp [ih, add_div]

/-- C6: `compress` returns, per pixel, `magnitude · exp(i·phase)` where the
phase is the angle of the sum over time of the raw samples times the
conjugate of the normalised (complex L2 norm across time) phase estimate;
a zero-norm phase-estimate pixel yields NaN instead of a division by zero,
and the magnitude is the supplied `slc_mean` when given, else the mean
magnitude of the raw samples across time. -/
theorem compress_phase_and_magnitude (slc pl : List ℂ) (m : Option ℝ) :
    (pixelNorm pl = 0 → compress slc pl m = none) ∧
    (pixelNorm pl ≠ 0 →
      compress slc pl m =
        some ((m.getD (((slc.map Complex.abs).sum) / slc.length) : ℝ) *
          Complex.exp (Complex.I * Complex.arg (((slc.zip pl).map
            (fun q => q.1 * (starRingEnd ℂ) (q.2 / (pixelNorm pl : ℂ)))).sum)))) := by
  constructor
  · intro h
    simp [compress, h]
  · intro h
    have hsum : ((slc.zip pl).map
        (fun q => q.1 * (starRingEnd ℂ) (q.2 / (pixelNorm pl : ℂ)))).sum =
        (((slc.zip pl).map (fun q => q.1 * (starRingEnd ℂ) q.2)).sum) /
          (pixelNorm pl : ℂ) := by
      have hq : ∀ q : ℂ × ℂ, q.1 * (starRingEnd ℂ) (q.2 / (pixelNorm pl : ℂ)) =
          q.1 * (starRingEnd ℂ) q.2 / (pixelNorm pl : ℂ) := by
        intro q
        rw [map_div₀, Complex.conj_ofReal, mul_div_assoc]
      rw [← sum_map_div]
      simp only [hq]
    rw [hsum]
    simp [compress, h]

/-- C6 witness: a one-acquisition pixel with unit phase estimate, and a
zero-norm pixel. -/
theorem compress_phase_and_magnitude_witness :
    compress [(2 : ℂ)] [0] none = none ∧
    compress [(2 : ℂ)] [1] none =
      some (((Option.none.getD ((([(2 : ℂ)].map Complex.abs).sum) /
          ([(2 : ℂ)].length)) : ℝ)) *
        Complex.exp (Complex.I * Complex.arg ((([(2 : ℂ)].zip [1]).map
          (fun q => q.1 * (starRingEnd ℂ) (q.2 / (pixelNorm [1] : ℂ)))).sum))) :=
  ⟨(compress_phase_and_magnitude [2] [0] none).1 (by simp [pixelNorm]),
   (compress_phase_and_magnitude [2] [1] none).2 (by
      rw [show pixelNorm [1] = 1 by simp [pixelNorm]]
      norm_num)⟩

end Dolphin
